import Mathlib

/-! Verification of `haisum/recaptcha`.

A shallow embedding of `recaptcha.go` (type `R`, methods `Verify`, `LastError`
and `findRemoteAddr`) together with the few Go standard-library functions the
code calls (`strings.Split`, `strings.TrimSpace`, `net.SplitHostPort`,
`url.Values`, `http.Header.Get`, `http.Request.FormValue`).

Go strings are modelled by Lean `String`s (sequences of Unicode code points,
that is Go strings holding valid UTF-8; the separators the code looks for are
all ASCII); the pointer receiver of `Verify` becomes explicit state passing,
and the network (the one outbound POST, reading its body, decoding JSON) is
an explicit environment value `Net`.
-/

set_option autoImplicit false

/-! ## Go standard-library helpers -/

/-- Go `url.Values` and `http.Header`: a map from a key to a list of values,
kept here as an association list whose first entry for a key is the binding. -/
abbrev Values := List (String × List String)

/-- Go map indexing `m[key]`: the bound list, the nil (empty) list when absent. -/
def Values.index (m : Values) (key : String) : List String :=
  (m.lookup key).getD []

/-- Go `url.Values.Get` and `http.Header.Get` on an already canonical key: the
first value bound to the key, the empty string when there is none. -/
def Values.Get (m : Values) (key : String) : String :=
  (m.index key).headD ""

/-- Go `url.Values.Set`: the key is bound to the single value, replacing any
earlier binding. -/
def Values.Set (m : Values) (key value : String) : Values :=
  (key, [value]) :: m.filter (fun kv => kv.1 != key)

/-- The keys a map holds. -/
def Values.keys (m : Values) : List String :=
  m.map Prod.fst

namespace unicode

/-- Go `unicode.IsSpace`: the code points with the Unicode White_Space
property. -/
def IsSpace (c : Char) : Bool :=
  c = '\t' || c = '\n' || c = '\x0b' || c = '\x0c' || c = '\r' || c = ' ' ||
  c = '\u0085' || c = '\u00a0' || c = '\u1680' ||
  (0x2000 ≤ c.toNat && c.toNat ≤ 0x200a) ||
  c = '\u2028' || c = '\u2029' || c = '\u202f' || c = '\u205f' || c = '\u3000'

end unicode

namespace strings

/-- Splitting a character sequence at every occurrence of `sep`; the pieces
between separators are returned in order, empty pieces included. -/
def splitChars (sep : Char) : List Char → List (List Char)
  | [] => [[]]
  | c :: cs =>
    if c = sep then [] :: splitChars sep cs
    else
      match splitChars sep cs with
      | [] => [[c]]
      | x :: xs => (c :: x) :: xs

/-- Go `strings.Split(s, sep)` for a one-character separator: all substrings
of `s` separated by `sep`, in order (`Count(s, sep) + 1` of them). -/
def Split (s : String) (sep : Char) : List String :=
  (splitChars sep s.data).map String.mk

/-- Trimming at the right end: trailing white space removed. -/
def trimRightChars (l : List Char) : List Char :=
  (l.reverse.dropWhile unicode.IsSpace).reverse

/-- Go `strings.TrimSpace`: leading and trailing white space (as defined by
`unicode.IsSpace`) removed. -/
def TrimSpace (s : String) : String :=
  ⟨trimRightChars (s.data.dropWhile unicode.IsSpace)⟩

end strings

namespace net

/-- Go `bytealg.IndexByteString`: position of the first occurrence. -/
def indexByte (c : Char) (l : List Char) : Option Nat :=
  let i := l.indexOf c
  if i < l.length then some i else none

/-- Go `bytealg.LastIndexByteString`: position of the last occurrence. -/
def lastIndexByte (c : Char) (l : List Char) : Option Nat :=
  match indexByte c l.reverse with
  | none => none
  | some i => some (l.length - 1 - i)

/-- Go `net.SplitHostPort`: splits `host:port`, `[host]:port` into host and
port; `Except.error` carries the reason of an `AddrError`. -/
def SplitHostPort (hostport : String) : Except String (String × String) :=
  let hp := hostport.data
  match lastIndexByte ':' hp with
  | none => .error "missing port in address"
  | some i =>
    if hp.head? = some '[' then
      match indexByte ']' hp with
      | none => .error "missing ']' in address"
      | some e =>
        if e + 1 = hp.length then .error "missing port in address"
        else if e + 1 = i then
          if (indexByte '[' (hp.drop 1)).isSome then .error "unexpected '[' in address"
          else if (indexByte ']' (hp.drop (e + 1))).isSome then
            .error "unexpected ']' in address"
          else .ok (⟨(hp.take e).drop 1⟩, ⟨hp.drop (i + 1)⟩)
        else if hp.get? (e + 1) = some ':' then .error "too many colons in address"
        else .error "missing port in address"
    else
      let host := hp.take i
      if (indexByte ':' host).isSome then .error "too many colons in address"
      else if (indexByte '[' hp).isSome then .error "unexpected '[' in address"
      else if (indexByte ']' hp).isSome then .error "unexpected ']' in address"
      else .ok (⟨host⟩, ⟨hp.drop (i + 1)⟩)

end net

/-! ## The package `recaptcha` -/

/-- Go `http.Request`, restricted to what the package reads: the parsed form,
the header and the connection address. -/
structure Request where
  Form : Values
  Header : Values
  RemoteAddr : String

/-- Go `req.FormValue(key)`: first value of the form field, empty when the
field is missing. -/
def Request.FormValue (req : Request) (key : String) : String :=
  req.Form.Get key

/-- The type `R` of `recaptcha.go`. -/
structure R where
  Secret : String
  lastError : List String
  UseRemoteIP : Bool
  TrustXForwardedFor : Bool

/-- The struct `googleResponse` of `recaptcha.go`. -/
structure googleResponse where
  Success : Bool
  ErrorCodes : List String

/-- Go `*http.Response`, restricted to its body: the outcome of
`ioutil.ReadAll(resp.Body)`, either the bytes or the read error's message. -/
structure Response where
  Body : Except String String

/-- The environment of one `Verify` call: `client.PostForm` (its error is the
transport error's message) and `json.Unmarshal` into a `googleResponse`. -/
structure Net where
  PostForm : String → Values → Except String Response
  Unmarshal : String → Except String googleResponse

/-- The variable `postURL` of `recaptcha.go`. -/
def postURL : String := "https://www.google.com/recaptcha/api/siteverify"

/-- The method `findRemoteAddr` of `recaptcha.go`. -/
def R.findRemoteAddr (r : R) (req : Request) : String :=
  let addr := if r.TrustXForwardedFor then req.Header.Get "X-Forwarded-For" else ""
  if addr = "" then
    match net.SplitHostPort req.RemoteAddr with
    | .ok (host, _) => host
    | .error _ => ""
  else
    let addrs := strings.Split addr ','
    strings.TrimSpace (addrs.getLastD "")

/-- The form parameters `Verify` builds (lines 52 to 58 of `recaptcha.go`). -/
def R.params (r : R) (req : Request) : Values :=
  let response := req.FormValue "g-recaptcha-response"
  let params : Values := [("secret", [r.Secret]), ("response", [response])]
  if r.UseRemoteIP then
    let addr := r.findRemoteAddr req
    params.Set "remoteip" addr
  else params

/-- The method `Verify` of `recaptcha.go`: the verdict and the receiver after
the call. -/
def R.Verify (net : Net) (r : R) (req : Request) : Bool × R :=
  let r := { r with lastError := List.replicate 1 "" }
  let params := r.params req
  match net.PostForm postURL params with
  | .error err => (false, { r with lastError := r.lastError ++ [err] })
  | .ok resp =>
    match resp.Body with
    | .error err => (false, { r with lastError := r.lastError ++ [err] })
    | .ok body =>
      match net.Unmarshal body with
      | .error err => (false, { r with lastError := r.lastError ++ [err] })
      | .ok gr =>
        let r := if !gr.Success then { r with lastError := r.lastError ++ gr.ErrorCodes } else r
        (gr.Success, r)

/-- The method `LastError` of `recaptcha.go`. -/
def R.LastError (r : R) : List String :=
  r.lastError

/-! ## Sample inputs -/

/-- A verifier with secret `S` that left an earlier error behind. -/
def sampleR : R :=
  { Secret := "S", lastError := ["stale"], UseRemoteIP := false, TrustXForwardedFor := false }

/-- A request with an empty token, behind a proxy. -/
def sampleRequest : Request :=
  { Form := [("g-recaptcha-response", [""])]
    Header := [("X-Forwarded-For", ["1.2.3.4, 5.6.7.8"])]
    RemoteAddr := "9.9.9.9:443" }

/-- The provider accepts: the reply decodes to `success = true`. -/
def acceptingNet : Net :=
  { PostForm := fun _ _ => .ok ⟨.ok "accepted"⟩
    Unmarshal := fun _ => .ok ⟨true, []⟩ }

/-- The provider rejects with the code `missing-input-response`. -/
def rejectingNet : Net :=
  { PostForm := fun _ _ => .ok ⟨.ok "rejected"⟩
    Unmarshal := fun _ => .ok ⟨false, ["missing-input-response"]⟩ }

/-- The POST fails at the transport layer. -/
def timeoutNet : Net :=
  { PostForm := fun _ _ => .error "context deadline exceeded"
    Unmarshal := fun _ => .ok ⟨true, []⟩ }

/-- The body cannot be read to its end. -/
def brokenBodyNet : Net :=
  { PostForm := fun _ _ => .ok ⟨.error "unexpected EOF"⟩
    Unmarshal := fun _ => .ok ⟨true, []⟩ }

/-- The body is read but is not JSON. -/
def garbageNet : Net :=
  { PostForm := fun _ _ => .ok ⟨.ok "<html>"⟩
    Unmarshal := fun _ => .error "invalid character '<' looking for beginning of value" }

/-! ## `Verify` and `LastError` -/

/-- Unfolding of `Verify` on a transport failure. -/
theorem Verify_postError (net : Net) (r : R) (req : Request) (m : String)
    (h : net.PostForm postURL (r.params req) = .error m) :
    R.Verify net r req = (false, { r with lastError := ["", m] }) := by
  have hp : R.params { r with lastError := List.replicate 1 "" } req = r.params req := rfl
  simp only [R.Verify, hp, h]
  rfl

/-- Unfolding of `Verify` on a failure to read the body. -/
theorem Verify_readError (net : Net) (r : R) (req : Request) (resp : Response) (m : String)
    (h : net.PostForm postURL (r.params req) = .ok resp) (hb : resp.Body = .error m) :
    R.Verify net r req = (false, { r with lastError := ["", m] }) := by
  have hp : R.params { r with lastError := List.replicate 1 "" } req = r.params req := rfl
  simp only [R.Verify, hp, h, hb]
  rfl

/-- Unfolding of `Verify` on a body that does not decode. -/
theorem Verify_decodeError (net : Net) (r : R) (req : Request) (resp : Response)
    (body m : String)
    (h : net.PostForm postURL (r.params req) = .ok resp) (hb : resp.Body = .ok body)
    (hu : net.Unmarshal body = .error m) :
    R.Verify net r req = (false, { r with lastError := ["", m] }) := by
  have hp : R.params { r with lastError := List.replicate 1 "" } req = r.params req := rfl
  simp only [R.Verify, hp, h, hb, hu]
  rfl

/-- Unfolding of `Verify` on a decoded reply. -/
theorem Verify_decoded (net : Net) (r : R) (req : Request) (resp : Response)
    (body : String) (gr : googleResponse)
    (h : net.PostForm postURL (r.params req) = .ok resp) (hb : resp.Body = .ok body)
    (hu : net.Unmarshal body = .ok gr) :
    R.Verify net r req =
      (gr.Success,
        { r with lastError := if gr.Success then [""] else "" :: gr.ErrorCodes }) := by
  have hp : R.params { r with lastError := List.replicate 1 "" } req = r.params req := rfl
  simp only [R.Verify, hp, h, hb, hu]
  cases gr.Success <;> rfl

/-- The four ways a `Verify` call can go. -/
theorem Verify_cases (net : Net) (r : R) (req : Request) :
    (∃ m, net.PostForm postURL (r.params req) = .error m) ∨
    (∃ resp m, net.PostForm postURL (r.params req) = .ok resp ∧ resp.Body = .error m) ∨
    (∃ resp body m, net.PostForm postURL (r.params req) = .ok resp ∧ resp.Body = .ok body ∧
      net.Unmarshal body = .error m) ∨
    (∃ resp body gr, net.PostForm postURL (r.params req) = .ok resp ∧ resp.Body = .ok body ∧
      net.Unmarshal body = .ok gr) := by
  cases h : net.PostForm postURL (r.params req) with
  | error m => exact Or.inl ⟨m, rfl⟩
  | ok resp =>
    cases hb : resp.Body with
    | error m => exact Or.inr (Or.inl ⟨resp, m, rfl, hb⟩)
    | ok body =>
      cases hu : net.Unmarshal body with
      | error m => exact Or.inr (Or.inr (Or.inl ⟨resp, body, m, rfl, hb, hu⟩))
      | ok gr => exact Or.inr (Or.inr (Or.inr ⟨resp, body, gr, rfl, hb, hu⟩))

/-- C1 (evaluation at the failing input): the provider accepts, `Verify`
returns true, and `LastError()` is the one-element list holding the empty
string that `make([]string, 1)` created, not the empty list. -/
theorem C1_accepted_lastError_blank :
    (R.Verify acceptingNet sampleR sampleRequest).1 = true ∧
    (R.Verify acceptingNet sampleR sampleRequest).2.LastError = [""] ∧
    (R.Verify acceptingNet sampleR sampleRequest).2.LastError.length = 1 ∧
    (R.Verify acceptingNet sampleR sampleRequest).2.LastError ≠ [] := by
  decide

/-- C2 (evaluation at the failing input): secret `S`, empty token, the reply
decodes to `success = false` with the single code `missing-input-response`;
`Verify` returns false and `LastError()` holds an empty string before the
provider's code, so it is not the provider's list. -/
theorem C2_rejected_lastError_leading_blank :
    sampleR.Secret = "S" ∧ sampleRequest.FormValue "g-recaptcha-response" = "" ∧
    (R.Verify rejectingNet sampleR sampleRequest).1 = false ∧
    (R.Verify rejectingNet sampleR sampleRequest).2.LastError =
      ["", "missing-input-response"] ∧
    (R.Verify rejectingNet sampleR sampleRequest).2.LastError ≠
      ["missing-input-response"] := by
  decide

/-- C3 (evaluation at the failing input): the POST fails with the message
`context deadline exceeded`; `Verify` returns false and `LastError()` has
length 2, an empty string followed by the message. -/
theorem C3_transport_lastError_two_entries :
    (R.Verify timeoutNet sampleR sampleRequest).1 = false ∧
    (R.Verify timeoutNet sampleR sampleRequest).2.LastError =
      ["", "context deadline exceeded"] ∧
    (R.Verify timeoutNet sampleR sampleRequest).2.LastError.length = 2 := by
  decide

/-- C4: `Verify` returns true exactly when the POST succeeded, the body was
read, the body decoded and the decoded success flag is true; whenever the body
decodes the verdict is the decoded flag, and a transport, read or decode
failure gives false. -/
theorem C4_verdict (net : Net) (r : R) (req : Request) :
    ((R.Verify net r req).1 = true ↔
      ∃ resp body gr, net.PostForm postURL (r.params req) = .ok resp ∧
        resp.Body = .ok body ∧ net.Unmarshal body = .ok gr ∧ gr.Success = true) ∧
    (∀ resp body gr, net.PostForm postURL (r.params req) = .ok resp →
      resp.Body = .ok body → net.Unmarshal body = .ok gr →
      (R.Verify net r req).1 = gr.Success) ∧
    (∀ m, net.PostForm postURL (r.params req) = .error m → (R.Verify net r req).1 = false) ∧
    (∀ resp m, net.PostForm postURL (r.params req) = .ok resp → resp.Body = .error m →
      (R.Verify net r req).1 = false) ∧
    (∀ resp body m, net.PostForm postURL (r.params req) = .ok resp → resp.Body = .ok body →
      net.Unmarshal body = .error m → (R.Verify net r req).1 = false) := by
  refine ⟨?_, ?_, ?_, ?_, ?_⟩
  · constructor
    · intro hv
      rcases Verify_cases net r req with ⟨m, h⟩ | ⟨resp, m, h, hb⟩ | ⟨resp, body, m, h, hb, hu⟩ |
        ⟨resp, body, gr, h, hb, hu⟩
      · rw [Verify_postError net r req m h] at hv
        exact absurd hv Bool.false_ne_true
      · rw [Verify_readError net r req resp m h hb] at hv
        exact absurd hv Bool.false_ne_true
      · rw [Verify_decodeError net r req resp body m h hb hu] at hv
        exact absurd hv Bool.false_ne_true
      · rw [Verify_decoded net r req resp body gr h hb hu] at hv
        exact ⟨resp, body, gr, h, hb, hu, hv⟩
    · rintro ⟨resp, body, gr, h, hb, hu, hs⟩
      rw [Verify_decoded net r req resp body gr h hb hu]
      exact hs
  · intro resp body gr h hb hu
    rw [Verify_decoded net r req resp body gr h hb hu]
  · intro m h
    rw [Verify_postError net r req m h]
  · intro resp m h hb
    rw [Verify_readError net r req resp m h hb]
  · intro resp body m h hb hu
    rw [Verify_decodeError net r req resp body m h hb hu]

/-- C4 at concrete inputs: an accepting provider gives true, a rejecting one
the decoded flag false, and each failure gives false. -/
theorem C4_verdict_witness :
    (R.Verify acceptingNet sampleR sampleRequest).1 = true ∧
    (R.Verify rejectingNet sampleR sampleRequest).1 = false ∧
    (R.Verify timeoutNet sampleR sampleRequest).1 = false ∧
    (R.Verify brokenBodyNet sampleR sampleRequest).1 = false ∧
    (R.Verify garbageNet sampleR sampleRequest).1 = false :=
  ⟨(C4_verdict acceptingNet sampleR sampleRequest).1.2
      ⟨⟨.ok "accepted"⟩, "accepted", ⟨true, []⟩, rfl, rfl, rfl, rfl⟩,
    (C4_verdict rejectingNet sampleR sampleRequest).2.1 ⟨.ok "rejected"⟩ "rejected"
      ⟨false, ["missing-input-response"]⟩ rfl rfl rfl,
    (C4_verdict timeoutNet sampleR sampleRequest).2.2.1 "context deadline exceeded" rfl,
    (C4_verdict brokenBodyNet sampleR sampleRequest).2.2.2.1 ⟨.error "unexpected EOF"⟩
      "unexpected EOF" rfl rfl,
    (C4_verdict garbageNet sampleR sampleRequest).2.2.2.2 ⟨.ok "<html>"⟩ "<html>"
      "invalid character '<' looking for beginning of value" rfl rfl rfl⟩

/-- C7: the error list is overwritten, not accumulated: whatever list an
earlier call left in the verifier, `Verify` returns the same verdict and leaves
the same verifier, hence the same `LastError()`, as it does from any other
earlier list. -/
theorem C7_lastError_overwritten (net : Net) (r : R) (req : Request)
    (old₁ old₂ : List String) :
    (R.Verify net { r with lastError := old₁ } req).2.LastError =
      (R.Verify net { r with lastError := old₂ } req).2.LastError ∧
    R.Verify net { r with lastError := old₁ } req =
      R.Verify net { r with lastError := old₂ } req := by
  have h : R.Verify net { r with lastError := old₁ } req =
      R.Verify net { r with lastError := old₂ } req := rfl
  exact ⟨by rw [h], h⟩

/-- C9: when the body is read but does not decode, with decode error message
`m`, `Verify` returns false and `m` is in the list `LastError()` returns. -/
theorem C9_decode_failure (net : Net) (r : R) (req : Request) (resp : Response)
    (body m : String)
    (h : net.PostForm postURL (r.params req) = .ok resp) (hb : resp.Body = .ok body)
    (hu : net.Unmarshal body = .error m) :
    (R.Verify net r req).1 = false ∧ m ∈ (R.Verify net r req).2.LastError := by
  rw [Verify_decodeError net r req resp body m h hb hu]
  exact ⟨rfl, by simp [R.LastError]⟩

/-- C9 at a concrete input: an HTML body that is not JSON. -/
theorem C9_decode_failure_witness :
    (R.Verify garbageNet sampleR sampleRequest).1 = false ∧
    "invalid character '<' looking for beginning of value" ∈
      (R.Verify garbageNet sampleR sampleRequest).2.LastError :=
  C9_decode_failure garbageNet sampleR sampleRequest ⟨.ok "<html>"⟩ "<html>"
    "invalid character '<' looking for beginning of value" rfl rfl rfl

/-- C10: after every `Verify` call `LastError()` is non-empty and starts with
the empty string; its length is 1 on acceptance, 2 on a transport, read or
decode failure (the blank, then the message), and 1 plus the number of
provider codes on rejection (the blank, then the codes). -/
theorem C10_leading_blank (net : Net) (r : R) (req : Request) :
    (R.Verify net r req).2.LastError ≠ [] ∧
    (R.Verify net r req).2.LastError.head? = some "" ∧
    ((R.Verify net r req).1 = true → (R.Verify net r req).2.LastError = [""] ∧
      (R.Verify net r req).2.LastError.length = 1) ∧
    (∀ m, net.PostForm postURL (r.params req) = .error m →
      (R.Verify net r req).2.LastError = ["", m] ∧
      (R.Verify net r req).2.LastError.length = 2) ∧
    (∀ resp m, net.PostForm postURL (r.params req) = .ok resp → resp.Body = .error m →
      (R.Verify net r req).2.LastError = ["", m] ∧
      (R.Verify net r req).2.LastError.length = 2) ∧
    (∀ resp body m, net.PostForm postURL (r.params req) = .ok resp → resp.Body = .ok body →
      net.Unmarshal body = .error m →
      (R.Verify net r req).2.LastError = ["", m] ∧
      (R.Verify net r req).2.LastError.length = 2) ∧
    (∀ resp body gr, net.PostForm postURL (r.params req) = .ok resp → resp.Body = .ok body →
      net.Unmarshal body = .ok gr → gr.Success = false →
      (R.Verify net r req).2.LastError = "" :: gr.ErrorCodes ∧
      (R.Verify net r req).2.LastError.length = 1 + gr.ErrorCodes.length) := by
  refine ⟨?_, ?_, ?_, ?_, ?_, ?_, ?_⟩
  · rcases Verify_cases net r req with ⟨m, h⟩ | ⟨resp, m, h, hb⟩ | ⟨resp, body, m, h, hb, hu⟩ |
      ⟨resp, body, gr, h, hb, hu⟩
    · rw [Verify_postError net r req m h]; simp [R.LastError]
    · rw [Verify_readError net r req resp m h hb]; simp [R.LastError]
    · rw [Verify_decodeError net r req resp body m h hb hu]; simp [R.LastError]
    · rw [Verify_decoded net r req resp body gr h hb hu]
      cases gr.Success <;> simp [R.LastError]
  · rcases Verify_cases net r req with ⟨m, h⟩ | ⟨resp, m, h, hb⟩ | ⟨resp, body, m, h, hb, hu⟩ |
      ⟨resp, body, gr, h, hb, hu⟩
    · rw [Verify_postError net r req m h]; simp [R.LastError]
    · rw [Verify_readError net r req resp m h hb]; simp [R.LastError]
    · rw [Verify_decodeError net r req resp body m h hb hu]; simp [R.LastError]
    · rw [Verify_decoded net r req resp body gr h hb hu]
      cases gr.Success <;> simp [R.LastError]
  · intro hv
    rcases Verify_cases net r req with ⟨m, h⟩ | ⟨resp, m, h, hb⟩ | ⟨resp, body, m, h, hb, hu⟩ |
      ⟨resp, body, gr, h, hb, hu⟩
    · rw [Verify_postError net r req m h] at hv
      exact absurd hv Bool.false_ne_true
    · rw [Verify_readError net r req resp m h hb] at hv
      exact absurd hv Bool.false_ne_true
    · rw [Verify_decodeError net r req resp body m h hb hu] at hv
      exact absurd hv Bool.false_ne_true
    · rw [Verify_decoded net r req resp body gr h hb hu] at hv ⊢
      have hs : gr.Success = true := hv
      simp [R.LastError, hs]
  · intro m h
    rw [Verify_postError net r req m h]; simp [R.LastError]
  · intro resp m h hb
    rw [Verify_readError net r req resp m h hb]; simp [R.LastError]
  · intro resp body m h hb hu
    rw [Verify_decodeError net r req resp body m h hb hu]; simp [R.LastError]
  · intro resp body gr h hb hu hs
    rw [Verify_decoded net r req resp body gr h hb hu]
    simp [R.LastError, hs, Nat.add_comm]

/-- C10 at concrete inputs: the list after an accepted call, after a transport
failure and after a rejection with one code. -/
theorem C10_leading_blank_witness :
    ((R.Verify acceptingNet sampleR sampleRequest).2.LastError = [""] ∧
      (R.Verify acceptingNet sampleR sampleRequest).2.LastError.length = 1) ∧
    ((R.Verify timeoutNet sampleR sampleRequest).2.LastError =
        ["", "context deadline exceeded"] ∧
      (R.Verify timeoutNet sampleR sampleRequest).2.LastError.length = 2) ∧
    ((R.Verify rejectingNet sampleR sampleRequest).2.LastError =
        ["", "missing-input-response"] ∧
      (R.Verify rejectingNet sampleR sampleRequest).2.LastError.length = 1 + 1) :=
  ⟨(C10_leading_blank acceptingNet sampleR sampleRequest).2.2.1 (by decide),
    (C10_leading_blank timeoutNet sampleR sampleRequest).2.2.2.1
      "context deadline exceeded" rfl,
    (C10_leading_blank rejectingNet sampleR sampleRequest).2.2.2.2.2.2 ⟨.ok "rejected"⟩
      "rejected" ⟨false, ["missing-input-response"]⟩ rfl rfl rfl rfl⟩

/-! ## The posted parameters -/

/-- C8: the parameters `Verify` posts bind `secret` to the single value
`r.Secret` and `response` to the single value of the form field
`g-recaptcha-response` (as it is, also when empty); `remoteip` is a key exactly
when `UseRemoteIP` is true and is then bound to `findRemoteAddr`; there is no
other key; with `UseRemoteIP` false the parameters depend neither on
`RemoteAddr`, nor on the header, nor on `TrustXForwardedFor`; and `Verify`
consults the network at these parameters only. -/
theorem C8_posted_params (r : R) (req : Request) :
    (r.params req).index "secret" = [r.Secret] ∧
    (r.params req).index "response" = [req.FormValue "g-recaptcha-response"] ∧
    (req.FormValue "g-recaptcha-response" = "" → (r.params req).index "response" = [""]) ∧
    ("remoteip" ∈ (r.params req).keys ↔ r.UseRemoteIP = true) ∧
    (r.UseRemoteIP = true → (r.params req).index "remoteip" = [r.findRemoteAddr req]) ∧
    (∀ k ∈ (r.params req).keys, k = "secret" ∨ k = "response" ∨ k = "remoteip") ∧
    (r.params req).keys.Nodup ∧
    (r.UseRemoteIP = false → ∀ (addr : String) (hdr : Values) (t : Bool),
      R.params { r with TrustXForwardedFor := t }
        { req with RemoteAddr := addr, Header := hdr } = r.params req) ∧
    (∀ net₁ net₂ : Net,
      net₁.PostForm postURL (r.params req) = net₂.PostForm postURL (r.params req) →
      net₁.Unmarshal = net₂.Unmarshal → R.Verify net₁ r req = R.Verify net₂ r req) := by
  have hp : R.params { r with lastError := List.replicate 1 "" } req = r.params req := rfl
  refine ⟨?_, ?_, ?_, ?_, ?_, ?_, ?_, ?_, ?_⟩
  · cases hu : r.UseRemoteIP <;>
      simp [R.params, hu, Values.Set, Values.index, List.lookup, List.filter]
  · cases hu : r.UseRemoteIP <;>
      simp [R.params, hu, Values.Set, Values.index, List.lookup, List.filter]
  · intro he
    cases hu : r.UseRemoteIP <;>
      simp [R.params, hu, Values.Set, Values.index, List.lookup, List.filter, he]
  · cases hu : r.UseRemoteIP <;>
      simp [R.params, hu, Values.Set, Values.keys, List.filter]
  · intro hu
    simp [R.params, hu, Values.Set, Values.index, List.lookup]
  · intro k hk
    cases hu : r.UseRemoteIP <;>
      simp [R.params, hu, Values.Set, Values.keys, List.filter] at hk <;> tauto
  · cases hu : r.UseRemoteIP <;>
      simp [R.params, hu, Values.Set, Values.keys, List.filter]
  · intro hu addr hdr t
    simp [R.params, hu, Request.FormValue]
  · intro net₁ net₂ hpost hun
    simp only [R.Verify, hp, hpost, hun]

/-- C8 at concrete inputs: with `UseRemoteIP` false nothing of the address is
posted, whatever the connection address, header and trust flag are, and two
networks that answer this one POST alike give the same result. -/
theorem C8_posted_params_witness :
    ((sampleR.params sampleRequest).index "response" = [""]) ∧
    (R.params { sampleR with TrustXForwardedFor := true }
        { sampleRequest with RemoteAddr := "10.0.0.1:1", Header := [] } =
      sampleR.params sampleRequest) ∧
    (({ sampleR with UseRemoteIP := true } : R).params sampleRequest).index "remoteip" =
      [({ sampleR with UseRemoteIP := true } : R).findRemoteAddr sampleRequest] :=
  ⟨(C8_posted_params sampleR sampleRequest).2.2.1 (by decide),
    (C8_posted_params sampleR sampleRequest).2.2.2.2.2.2.2.1 rfl "10.0.0.1:1" [] true,
    (C8_posted_params { sampleR with UseRemoteIP := true } sampleRequest).2.2.2.2.1 rfl⟩

/-! ## Address selection -/

/-- `splitChars` never returns the empty list. -/
theorem splitChars_ne_nil (sep : Char) (l : List Char) : strings.splitChars sep l ≠ [] := by
  cases l with
  | nil => simp [strings.splitChars]
  | cons c cs =>
    unfold strings.splitChars
    split
    · simp
    · split <;> simp

/-- The last piece `splitChars` returns is free of the separator and is what
follows the last separator of the input, the whole input when it has none. -/
theorem splitChars_getLast (sep : Char) (l : List Char) :
    ∃ seg, (strings.splitChars sep l).getLast? = some seg ∧ sep ∉ seg ∧
      ((strings.splitChars sep l = [seg] ∧ l = seg) ∨
        (∃ pre, l = pre ++ sep :: seg ∧ 2 ≤ (strings.splitChars sep l).length)) := by
  induction l with
  | nil => exact ⟨[], by simp [strings.splitChars]⟩
  | cons c cs ih =>
    obtain ⟨seg, hlast, hsep, hshape⟩ := ih
    by_cases hc : c = sep
    · subst hc
      refine ⟨seg, ?_, hsep, Or.inr ?_⟩
      · simp only [strings.splitChars, if_true]
        rw [List.getLast?_cons, hlast]
        rfl
      · rcases hshape with ⟨h1, h2⟩ | ⟨pre, h1, h2⟩
        · exact ⟨[], by simp [h2.symm], by simp [strings.splitChars, h1]⟩
        · exact ⟨c :: pre, by simp [h1], by simp only [strings.splitChars, if_true, List.length_cons]; omega⟩
    · rcases hshape with ⟨h1, h2⟩ | ⟨pre, h1, h2⟩
      · refine ⟨c :: seg, ?_, ?_, Or.inl ⟨?_, by rw [h2]⟩⟩
        · simp [strings.splitChars, hc, h1]
        · simp [hsep, Ne.symm hc]
        · simp [strings.splitChars, hc, h1]
      · refine ⟨seg, ?_, hsep, Or.inr ⟨c :: pre, by simp [h1], ?_⟩⟩
        · simp only [strings.splitChars, hc, if_false]
          match hs : strings.splitChars sep cs, h2, hlast with
          | x :: y :: ys, _, hl => simpa using hl
        · simp only [strings.splitChars, hc, if_false]
          match hs : strings.splitChars sep cs, h2 with
          | x :: y :: ys, _ => simp

/-- The first character left by `dropWhile` fails the test. -/
theorem head?_dropWhile_false (p : Char → Bool) (l : List Char) (c : Char)
    (h : (l.dropWhile p).head? = some c) : p c = false := by
  have := List.head?_dropWhile_not p l
  rw [h] at this
  exact this

/-- What `TrimSpace` returns, on character sequences: the input is white
space, then the result, then white space, and the result neither starts nor
ends with white space. -/
theorem trim_spec (l : List Char) :
    ∃ pre post, l = pre ++ strings.trimRightChars (l.dropWhile unicode.IsSpace) ++ post ∧
      (∀ c ∈ pre, unicode.IsSpace c = true) ∧ (∀ c ∈ post, unicode.IsSpace c = true) ∧
      (∀ c, (strings.trimRightChars (l.dropWhile unicode.IsSpace)).head? = some c →
        unicode.IsSpace c = false) ∧
      (∀ c, (strings.trimRightChars (l.dropWhile unicode.IsSpace)).getLast? = some c →
        unicode.IsSpace c = false) := by
  refine ⟨l.takeWhile unicode.IsSpace,
    ((l.dropWhile unicode.IsSpace).reverse.takeWhile unicode.IsSpace).reverse, ?_, ?_, ?_, ?_, ?_⟩
  · have h1 : strings.trimRightChars (l.dropWhile unicode.IsSpace) ++
        ((l.dropWhile unicode.IsSpace).reverse.takeWhile unicode.IsSpace).reverse =
        l.dropWhile unicode.IsSpace := by
      unfold strings.trimRightChars
      rw [← List.reverse_append, List.takeWhile_append_dropWhile, List.reverse_reverse]
    rw [List.append_assoc, h1, List.takeWhile_append_dropWhile]
  · intro c hc
    exact List.mem_takeWhile_imp hc
  · intro c hc
    exact List.mem_takeWhile_imp (List.mem_reverse.mp hc)
  · intro c hc
    have hd : (l.dropWhile unicode.IsSpace).head? = some c := by
      have h1 : strings.trimRightChars (l.dropWhile unicode.IsSpace) ++
          ((l.dropWhile unicode.IsSpace).reverse.takeWhile unicode.IsSpace).reverse =
          l.dropWhile unicode.IsSpace := by
        unfold strings.trimRightChars
        rw [← List.reverse_append, List.takeWhile_append_dropWhile, List.reverse_reverse]
      rw [← h1, List.head?_append, hc]
      rfl
    exact head?_dropWhile_false _ _ _ hd
  · intro c hc
    unfold strings.trimRightChars at hc
    rw [List.getLast?_reverse] at hc
    exact head?_dropWhile_false _ _ _ hc

/-- C5: with `TrustXForwardedFor` true and a non-empty `X-Forwarded-For` value
`h`, `findRemoteAddr` returns the last comma-separated segment of `h` (what
follows the last comma, all of `h` when it has none) with the white space
around it removed, whatever the connection address is. -/
theorem C5_forwarded_last_segment (r : R) (req : Request)
    (ht : r.TrustXForwardedFor = true) (hne : req.Header.Get "X-Forwarded-For" ≠ "") :
    (∃ seg pre post : List Char,
      ((req.Header.Get "X-Forwarded-For").data = seg ∨
        ∃ front, (req.Header.Get "X-Forwarded-For").data = front ++ ',' :: seg) ∧
      ',' ∉ seg ∧
      seg = pre ++ (r.findRemoteAddr req).data ++ post ∧
      (∀ c ∈ pre, unicode.IsSpace c = true) ∧ (∀ c ∈ post, unicode.IsSpace c = true) ∧
      (∀ c, (r.findRemoteAddr req).data.head? = some c → unicode.IsSpace c = false) ∧
      (∀ c, (r.findRemoteAddr req).data.getLast? = some c → unicode.IsSpace c = false)) ∧
    (∀ addr : String,
      r.findRemoteAddr { req with RemoteAddr := addr } = r.findRemoteAddr req) := by
  obtain ⟨seg, hlast, hsep, hshape⟩ :=
    splitChars_getLast ',' (req.Header.Get "X-Forwarded-For").data
  have hres : ∀ addr : String, r.findRemoteAddr { req with RemoteAddr := addr } =
      ⟨strings.trimRightChars (seg.dropWhile unicode.IsSpace)⟩ := by
    intro addr
    simp only [R.findRemoteAddr, ht, if_true, hne, if_false, strings.Split, strings.TrimSpace,
      List.getLastD_eq_getLast?, List.getLast?_map, hlast, Option.map_some', Option.getD_some]
  have hreq : r.findRemoteAddr req = ⟨strings.trimRightChars (seg.dropWhile unicode.IsSpace)⟩ :=
    hres req.RemoteAddr
  obtain ⟨pre, post, hcat, hpre, hpost, hhead, htail⟩ := trim_spec seg
  refine ⟨⟨seg, pre, post, ?_, hsep, ?_, hpre, hpost, ?_, ?_⟩, ?_⟩
  · rcases hshape with ⟨_, h2⟩ | ⟨front, h1, _⟩
    · exact Or.inl h2
    · exact Or.inr ⟨front, h1⟩
  · rw [hreq]
    exact hcat
  · rw [hreq]
    exact hhead
  · rw [hreq]
    exact htail
  · intro addr
    rw [hres addr, hreq]

/-- C5 at the header value `1.2.3.4, 5.6.7.8`: the selected address is
`5.6.7.8`. -/
theorem C5_forwarded_last_segment_witness :
    ({ sampleR with TrustXForwardedFor := true } : R).findRemoteAddr sampleRequest = "5.6.7.8" ∧
    sampleRequest.Header.Get "X-Forwarded-For" = "1.2.3.4, 5.6.7.8" ∧
    ((∃ seg pre post : List Char,
      ((sampleRequest.Header.Get "X-Forwarded-For").data = seg ∨
        ∃ front, (sampleRequest.Header.Get "X-Forwarded-For").data = front ++ ',' :: seg) ∧
      ',' ∉ seg ∧
      seg = pre ++
        (({ sampleR with TrustXForwardedFor := true } : R).findRemoteAddr sampleRequest).data ++
        post ∧
      (∀ c ∈ pre, unicode.IsSpace c = true) ∧ (∀ c ∈ post, unicode.IsSpace c = true) ∧
      (∀ c, (({ sampleR with TrustXForwardedFor := true } : R).findRemoteAddr
        sampleRequest).data.head? = some c → unicode.IsSpace c = false) ∧
      (∀ c, (({ sampleR with TrustXForwardedFor := true } : R).findRemoteAddr
        sampleRequest).data.getLast? = some c → unicode.IsSpace c = false)) ∧
    (∀ addr : String,
      ({ sampleR with TrustXForwardedFor := true } : R).findRemoteAddr
        { sampleRequest with RemoteAddr := addr } =
      ({ sampleR with TrustXForwardedFor := true } : R).findRemoteAddr sampleRequest)) :=
  ⟨by decide, by decide,
    C5_forwarded_last_segment { sampleR with TrustXForwardedFor := true } sampleRequest rfl
      (by decide)⟩

/-- `indexByte` finds nothing when the character does not occur. -/
theorem indexByte_of_not_mem (c : Char) (l : List Char) (h : c ∉ l) :
    net.indexByte c l = none := by
  simp [net.indexByte, List.indexOf_of_not_mem h]

/-- `lastIndexByte` finds the separator that no later separator follows. -/
theorem lastIndexByte_append (c : Char) (host port : List Char) (h : c ∉ port) :
    net.lastIndexByte c (host ++ c :: port) = some host.length := by
  have hr : (host ++ c :: port).reverse = port.reverse ++ c :: host.reverse := by simp
  have hi : List.indexOf c (port.reverse ++ c :: host.reverse) = port.length := by
    rw [List.indexOf_append_of_not_mem (by simpa using h), List.indexOf_cons_self]
    simp
  simp only [net.lastIndexByte, net.indexByte, hr, hi]
  simp only [List.length_append, List.length_reverse, List.length_cons]
  rw [if_pos (by omega)]
  simp only [Option.some.injEq]
  omega

/-- `SplitHostPort` on `host:port` where neither part holds a colon or a
square bracket. -/
theorem SplitHostPort_host_port (host port : List Char)
    (hh : ∀ c ∈ host, c ≠ ':' ∧ c ≠ '[' ∧ c ≠ ']')
    (hp : ∀ c ∈ port, c ≠ ':' ∧ c ≠ '[' ∧ c ≠ ']') :
    net.SplitHostPort ⟨host ++ ':' :: port⟩ = .ok (⟨host⟩, ⟨port⟩) := by
  have hcp : ':' ∉ port := fun h => (hp _ h).1 rfl
  have hch : ':' ∉ host := fun h => (hh _ h).1 rfl
  have hopen : '[' ∉ host ++ ':' :: port := by
    intro h
    rcases List.mem_append.mp h with h | h
    · exact (hh _ h).2.1 rfl
    · rcases List.mem_cons.mp h with h | h
      · exact absurd h (by decide)
      · exact (hp _ h).2.1 rfl
  have hclose : ']' ∉ host ++ ':' :: port := by
    intro h
    rcases List.mem_append.mp h with h | h
    · exact (hh _ h).2.2 rfl
    · rcases List.mem_cons.mp h with h | h
      · exact absurd h (by decide)
      · exact (hp _ h).2.2 rfl
  have hhead : (host ++ ':' :: port).head? ≠ some '[' := by
    intro h
    exact hopen (List.mem_of_mem_head? h)
  simp only [net.SplitHostPort, lastIndexByte_append ':' host port hcp, if_neg hhead,
    List.take_left', List.drop_left', indexByte_of_not_mem ':' host hch,
    indexByte_of_not_mem '[' _ hopen, indexByte_of_not_mem ']' _ hclose]
  simp

/-- `SplitHostPort` on the bracketed form `[host]:port`: the host is returned
without its brackets. -/
theorem SplitHostPort_bracketed (host port : List Char)
    (hh : ∀ c ∈ host, c ≠ '[' ∧ c ≠ ']')
    (hp : ∀ c ∈ port, c ≠ ':' ∧ c ≠ '[' ∧ c ≠ ']') :
    net.SplitHostPort ⟨'[' :: (host ++ ']' :: ':' :: port)⟩ = .ok (⟨host⟩, ⟨port⟩) := by
  have hcp : ':' ∉ port := fun h => (hp _ h).1 rfl
  have hlast : net.lastIndexByte ':' ('[' :: (host ++ ']' :: ':' :: port)) =
      some (host.length + 2) := by
    have := lastIndexByte_append ':' ('[' :: (host ++ [']'])) port hcp
    simpa using this
  have hclose : net.indexByte ']' ('[' :: (host ++ ']' :: ':' :: port)) =
      some (host.length + 1) := by
    have hnot : ']' ∉ host := fun h => (hh _ h).2 rfl
    have hi : List.indexOf ']' ('[' :: (host ++ ']' :: ':' :: port)) = host.length + 1 := by
      rw [List.indexOf_cons_ne _ (by decide), List.indexOf_append_of_not_mem hnot,
        List.indexOf_cons_self]
    simp only [net.indexByte, hi, List.length_cons, List.length_append]
    rw [if_pos (by omega)]
  have hopen : '[' ∉ host ++ ']' :: ':' :: port := by
    intro h
    rcases List.mem_append.mp h with h | h
    · exact (hh _ h).1 rfl
    · rcases List.mem_cons.mp h with h | h
      · exact absurd h (by decide)
      · rcases List.mem_cons.mp h with h | h
        · exact absurd h (by decide)
        · exact (hp _ h).2.1 rfl
  have hrest : ']' ∉ ':' :: port := by
    intro h
    rcases List.mem_cons.mp h with h | h
    · exact absurd h (by decide)
    · exact (hp _ h).2.2 rfl
  have hd1 : List.drop (host.length + 1) (host ++ ']' :: ':' :: port) = ':' :: port := by
    have : host ++ ']' :: ':' :: port = (host ++ [']']) ++ ':' :: port := by simp
    rw [this]
    exact List.drop_left' (by simp)
  have hd2 : List.drop (host.length + 2) (host ++ ']' :: ':' :: port) = port := by
    have : host ++ ']' :: ':' :: port = (host ++ [']', ':']) ++ port := by simp
    rw [this]
    exact List.drop_left' (by simp)
  have ht : List.drop 1 (List.take (host.length + 1) ('[' :: (host ++ ']' :: ':' :: port))) =
      host := by
    simp [List.take_left']
  simp only [net.SplitHostPort, hlast, hclose, List.head?_cons, if_true, List.drop_succ_cons,
    List.drop_zero, indexByte_of_not_mem '[' _ hopen, hd1, hd2, ht,
    indexByte_of_not_mem ']' _ hrest]
  simp

/-- C6: when `TrustXForwardedFor` is false (whatever the header holds) or the
`X-Forwarded-For` value is empty or absent, and `RemoteAddr` is `host:port`
with neither part holding a colon or a square bracket, `findRemoteAddr` returns
exactly `host`. -/
theorem C6_connection_host (r : R) (req : Request) (host port : String)
    (hx : r.TrustXForwardedFor = false ∨ req.Header.Get "X-Forwarded-For" = "")
    (hh : ∀ c ∈ host.data, c ≠ ':' ∧ c ≠ '[' ∧ c ≠ ']')
    (hp : ∀ c ∈ port.data, c ≠ ':' ∧ c ≠ '[' ∧ c ≠ ']')
    (haddr : req.RemoteAddr = host ++ ":" ++ port) :
    r.findRemoteAddr req = host := by
  have hsplit : net.SplitHostPort req.RemoteAddr = .ok (host, port) := by
    have hd : req.RemoteAddr = ⟨host.data ++ ':' :: port.data⟩ := by
      rw [haddr]
      apply String.ext
      simp
    rw [hd]
    exact SplitHostPort_host_port host.data port.data hh hp
  have haddr0 : (if r.TrustXForwardedFor then req.Header.Get "X-Forwarded-For" else "") = "" := by
    rcases hx with h | h
    · simp [h]
    · simp [h]
  simp only [R.findRemoteAddr, haddr0, if_true, hsplit]

/-- C6 at the connection address `9.9.9.9:443` with `TrustXForwardedFor`
false: the selected address is `9.9.9.9`, although the request carries an
`X-Forwarded-For` header. -/
theorem C6_connection_host_witness :
    sampleR.TrustXForwardedFor = false ∧ sampleRequest.RemoteAddr = "9.9.9.9:443" ∧
    sampleRequest.Header.Get "X-Forwarded-For" = "1.2.3.4, 5.6.7.8" ∧
    sampleR.findRemoteAddr sampleRequest = "9.9.9.9" :=
  ⟨rfl, rfl, by decide,
    C6_connection_host sampleR sampleRequest "9.9.9.9" "443" (Or.inl rfl)
      (by decide) (by decide) (by decide)⟩

/-- The bracketed form `[host]:port` of an IPv6 connection address: with no
forwarded address in play, `findRemoteAddr` returns the host without its
brackets. -/
theorem findRemoteAddr_bracketed (r : R) (req : Request) (host port : String)
    (hx : r.TrustXForwardedFor = false ∨ req.Header.Get "X-Forwarded-For" = "")
    (hh : ∀ c ∈ host.data, c ≠ '[' ∧ c ≠ ']')
    (hp : ∀ c ∈ port.data, c ≠ ':' ∧ c ≠ '[' ∧ c ≠ ']')
    (haddr : req.RemoteAddr = "[" ++ host ++ "]:" ++ port) :
    r.findRemoteAddr req = host := by
  have hsplit : net.SplitHostPort req.RemoteAddr = .ok (host, port) := by
    have hd : req.RemoteAddr = ⟨'[' :: (host.data ++ ']' :: ':' :: port.data)⟩ := by
      rw [haddr]
      apply String.ext
      simp
    rw [hd]
    exact SplitHostPort_bracketed host.data port.data hh hp
  have haddr0 : (if r.TrustXForwardedFor then req.Header.Get "X-Forwarded-For" else "") = "" := by
    rcases hx with h | h
    · simp [h]
    · simp [h]
  simp only [R.findRemoteAddr, haddr0, if_true, hsplit]

/-- A connection address that `SplitHostPort` refuses (no port, or colons
outside brackets) selects the empty address: the error is dropped. -/
theorem findRemoteAddr_unsplittable :
    sampleR.findRemoteAddr { sampleRequest with RemoteAddr := "9.9.9.9" } = "" ∧
    sampleR.findRemoteAddr { sampleRequest with RemoteAddr := "::1:443" } = "" := by
  decide
